import Mathlib

/-!
Shallow embedding of the x402-backend payment admission pipeline: the token
capacity manager, the Redis-backed pending-mint counter, the abuse detector,
the token deadline gate, the 402 challenge branch, the Redis connection pool
and the batch settlement coalescer, with theorems checking the natural
language specification's claims about them.

Sources embedded: src/utils/redisConnectionPool.ts (pool, deadline cache,
pending tracker, capacity manager), src/utils/batchSettleManager.ts
(coalescer), the abuse detector module and the express mint handler.
-/

namespace X402

/-- JS `s || d` on an optional string: `undefined` (`none`) and the empty
string are both falsy, so both fall back to the default. -/
def jsOrElse (s : Option String) (d : String) : String :=
  match s with
  | some r => if r = "" then d else r
  | none => d

/-- JS String.prototype.toLowerCase on the relevant alphabet, written as a
per-character map so the kernel can evaluate it. -/
def toLowerKey (s : String) : String :=
  ⟨s.data.map Char.toLower⟩

/-! ## Token capacity manager (TokenCapacityManager.checkCapacity) -/

/-- Mirrors interface TokenCapacityInfo. Counts are JS numbers; the only
operations on them here are addition, subtraction and comparison, so they are
embedded as integers. -/
structure TokenCapacityInfo where
  maxMintCount : Int
  currentMintCount : Int
  pendingCount : Int
  availableSlots : Int
deriving DecidableEq, Repr

/-- The error thrown by checkCapacity: an Error with a code field and the
capacityInfo attached. -/
structure CapacityError where
  code : String
  capacityInfo : TokenCapacityInfo
deriving DecidableEq, Repr

/-- TokenCapacityManager.checkCapacity after the three counters have been
fetched: computes totalExpected and availableSlots, throws CAPACITY_EXCEEDED
with the capacity info attached when totalExpected > maxMintCount, and
returns the capacity info otherwise. -/
def checkCapacity (maxMintCount currentMintCount pendingCount requestedCount : Int) :
    Except CapacityError TokenCapacityInfo :=
  let totalExpected := currentMintCount + pendingCount + requestedCount
  let availableSlots := maxMintCount - currentMintCount - pendingCount
  let capacityInfo : TokenCapacityInfo :=
    { maxMintCount, currentMintCount, pendingCount, availableSlots }
  if totalExpected > maxMintCount then
    Except.error { code := "CAPACITY_EXCEEDED", capacityInfo }
  else
    Except.ok capacityInfo

/-! ## Pending mint counter (PendingMintTracker) -/

/-- State of the Redis key `pending_mint:<token>` for one token: `none` when
the key is absent. -/
abbrev PendingKey := Option Int

/-- Redis INCRBY: a missing key counts as 0; returns the new value and sets
the key to it. -/
def redisIncrBy (s : PendingKey) (n : Int) : Int × PendingKey :=
  let v := s.getD 0 + n
  (v, some v)

/-- Redis DECRBY: a missing key counts as 0; returns the new value and sets
the key to it. -/
def redisDecrBy (s : PendingKey) (n : Int) : Int × PendingKey :=
  let v := s.getD 0 - n
  (v, some v)

/-- PendingMintTracker.incrementPending on the happy path (Redis available,
commands succeed): INCRBY then a one-hour EXPIRE (TTL not tracked here);
returns the new count. -/
def incrementPending (s : PendingKey) (n : Int) : Int × PendingKey :=
  redisIncrBy s n

/-- PendingMintTracker.decrementPending on the happy path: DECRBY, and when
the new count is ≤ 0 the key is deleted and 0 returned. -/
def decrementPending (s : PendingKey) (n : Int) : Int × PendingKey :=
  let r := redisDecrBy s n
  if r.1 ≤ 0 then (0, none) else r

/-- TokenCapacityManager.reserveCapacity: incrementPending, return value
discarded. -/
def reserveCapacity (s : PendingKey) (n : Int) : PendingKey :=
  (incrementPending s n).2

/-- TokenCapacityManager.releaseCapacity: decrementPending, return value
discarded. -/
def releaseCapacity (s : PendingKey) (n : Int) : PendingKey :=
  (decrementPending s n).2

/-- PendingMintTracker.getPendingCount: GET, absent key parsed as 0. -/
def getPendingCount (s : PendingKey) : Int :=
  s.getD 0

/-- A reserve or release call against one token's pending counter. -/
inductive PendingOp
  | reserve (n : Nat)
  | release (n : Nat)
deriving DecidableEq, Repr

/-- Apply one capacity operation to the pending key. -/
def applyPendingOp (s : PendingKey) : PendingOp → PendingKey
  | .reserve n => reserveCapacity s n
  | .release n => releaseCapacity s n

/-- Run a sequence of reserve/release calls against the pending key. -/
def runPendingOps (s : PendingKey) (ops : List PendingOp) : PendingKey :=
  ops.foldl applyPendingOp s

/-! ## Admission pipeline, steps 5 to 7 (handleMintRequest after reserve) -/

/-- Outcome of the awaited batch settle (Step 6): the enqueue promise either
rejects with an error whose optional reason field is branched on, or resolves
with a settle result whose transaction field may be missing. Resolution only
happens for results with success = true (flush rejects the others). -/
inductive SettleOutcome
  | err (reason : Option String)
  | ok (transaction : Option String)
deriving DecidableEq, Repr

/-- Steps 5-7 of handleMintRequest, from the capacity reserve to the HTTP
response, threading the pending_mint key for the request's token. `n` is
recipients.length. Returns the HTTP status and the final key state. Every
branch after the reserve runs with capacityReserved = true, so each one
releases before responding; the settleResponse built on resolution has
success hard-wired to true and no error field, so the 402
settlement-failure branch checks constants. -/
def mintFromReserve (pending0 : PendingKey) (n : Int) (outcome : SettleOutcome) :
    Nat × PendingKey :=
  let p1 := reserveCapacity pending0 n
  match outcome with
  | .err reason =>
    if reason = some "mempool_capacity_exceeded" then (400, releaseCapacity p1 n)
    else if reason = some "chain_query_failed" then (503, releaseCapacity p1 n)
    else (500, releaseCapacity p1 n)
  | .ok tx =>
    let success := true
    let errorField : Option String := none
    let transaction := jsOrElse tx ""
    if success = false ∨ errorField.isSome then (402, releaseCapacity p1 n)
    else if transaction = "" then (500, releaseCapacity p1 n)
    else (200, releaseCapacity p1 n)

/-! ## Token deadline cache and the deadline gate (Step 0.5) -/

/-- TokenDeadlineCache.isTokenExpired: strictly `now > deadline`, in Unix
seconds. -/
def isTokenExpired (deadline now : Int) : Bool :=
  decide (now > deadline)

/-- createIdentifier from the abuse detector module. -/
def createIdentifier (address ip : Option String) : String :=
  match address, ip with
  | some a, some i => "addr:" ++ toLowerKey a ++ "_ip:" ++ i
  | some a, none => "addr:" ++ toLowerKey a
  | none, some i => "ip:" ++ i
  | none, none => "unknown"

/-- Result of the deadline gate in handleMintRequest. -/
inductive DeadlineGateResult
  | pass
  | g410minimal
  | g410remaining (remainingTime : Int)
deriving DecidableEq, Repr

/-- Step 0.5 of handleMintRequest: difference := deadline − now; when
difference ≤ 0 record one abuse tick against ip:<ip>:expired
(`expiredTickAllowed` is that record's verdict) and return 410 — minimal body
when the record denies, remaining-time body otherwise; else fall through. -/
def deadlineGate (deadline now : Int) (expiredTickAllowed : Bool) : DeadlineGateResult :=
  let difference := deadline - now
  if difference ≤ 0 then
    if !expiredTickAllowed then .g410minimal
    else .g410remaining difference
  else .pass

/-! ## The 402 challenge branch (Step 1 of handleMintRequest) -/

/-- PAYMENT_TOKEN_ADDRESS, the USD4 contract on BSC mainnet. -/
def PAYMENT_TOKEN_ADDRESS : String := "0x2CBa817f6e3Ca58ff702Dc66feEEcb230A2EF349"

/-- PAYMENT_TOKEN_NAME. -/
def PAYMENT_TOKEN_NAME : String := "USD4"

/-- MINT_PRICE_USDT = parseUnits('10', 6). -/
def MINT_PRICE_USDT : Nat := 10 * 10 ^ 6

/-- The paymentRequired object of the 402 JSON body. -/
structure PaymentRequired where
  price : String
  amount : String
  payTo : String
  token : String
  tokenName : String
  tokenVersion : String
  network : String
deriving DecidableEq, Repr

/-- The full 402 response: status, JSON body fields and the
X-Payment-Options header value. -/
structure Challenge402 where
  status : Nat
  errorMsg : String
  message : String
  paymentRequired : PaymentRequired
  xPaymentOptions : String
deriving DecidableEq, Repr

/-- Ambient per-request nondeterminism available to the handler when the 402
branch runs: the random handlerRequestId and the clock. The branch reads
neither. -/
structure HandlerEnv where
  handlerRequestId : String
  nowMs : Nat
deriving DecidableEq, Repr

/-- The no-X-Payment branch of handleMintRequest: builds paymentRequirements
from the request's token address and module constants, the X-Payment-Options
header by string concatenation, and the 402 JSON body. -/
def challenge402 (_env : HandlerEnv) (tokenAddress : String) : Challenge402 :=
  let scheme := "exact"
  let network := "bsc"
  let amount := toString MINT_PRICE_USDT
  let xPaymentOptions :=
    "scheme=\"" ++ scheme ++ "\", network=\"" ++ network ++ "\", token=\"" ++
      PAYMENT_TOKEN_ADDRESS ++ "\", payee=\"" ++ tokenAddress ++
      "\", amount=\"" ++ amount ++ "\""
  { status := 402
    errorMsg := "Payment required"
    message := "Please include X-PAYMENT header with signed authorization"
    paymentRequired :=
      { price := "10 USD4", amount, payTo := tokenAddress
        token := PAYMENT_TOKEN_ADDRESS, tokenName := PAYMENT_TOKEN_NAME
        tokenVersion := "1", network }
    xPaymentOptions }

/-! ## Abuse detector (AbuseDetector.recordRequest) -/

/-- Mirrors AbuseConfig. -/
structure AbuseConfig where
  maxRequestsPerWindow : Nat
  timeWindowMs : Nat
  banDurationMs : Nat
deriving DecidableEq, Repr

/-- Redis state of the abuse namespaces: whitelist membership, ban keys with
their remaining TTLs, count keys with their values, and count-key window
TTLs. -/
structure AbuseState where
  whitelist : List String
  banKeys : List (String × Nat)
  counts : List (String × Nat)
  countTtl : List (String × Nat)
deriving DecidableEq, Repr

/-- Overwrite-or-insert into an association list (a Redis SET / INCR key
update). -/
def setKey (l : List (String × Nat)) (k : String) (v : Nat) : List (String × Nat) :=
  (k, v) :: l.filter (fun p => p.1 != k)

/-- The verdict recordRequest hands back. -/
inductive AbuseDecision
  | allowed
  | deniedBanned (ttl : Nat)
  | deniedRateLimited
deriving DecidableEq, Repr

/-- Which Redis commands inside one recordRequest call raise an error: the
EXISTS in isWhitelisted, the EXISTS in isBanned, the TTL read of the ban key,
the INCR of the count key, the PEXPIRE of the count key, and the SET of the
ban key inside banIdentifier. -/
structure AbuseCmdFailures where
  whitelistExistsFails : Bool
  banExistsFails : Bool
  banTtlFails : Bool
  incrFails : Bool
  pexpireFails : Bool
  banSetFails : Bool
deriving DecidableEq, Repr

/-- All Redis commands succeed. -/
def noAbuseFailures : AbuseCmdFailures := ⟨false, false, false, false, false, false⟩

/-- The tail of recordRequest after the INCR: compare the new count against
the limit; over the limit, banIdentifier SETs the ban key with the ban
duration but catches its own errors, so a failing SET leaves the ban unset
while the denial is still returned. -/
def afterIncr (cfg : AbuseConfig) (fails : AbuseCmdFailures) (key : String)
    (count : Nat) (s : AbuseState) : AbuseDecision × Option AbuseState :=
  if count > cfg.maxRequestsPerWindow then
    let s1 := if fails.banSetFails then s
      else { s with banKeys := setKey s.banKeys key cfg.banDurationMs }
    (.deniedRateLimited, some s1)
  else (.allowed, some s)

/-- AbuseDetector.recordRequest. `conn = none` models Redis unavailable
(ensureConnection returned null): allow. Otherwise, all on the lowercased
identifier: whitelist check (an EXISTS error escapes to recordRequest's
catch → allow); ban check (isBanned swallows its own error and returns
false); when banned, the TTL is read (an error escapes → allow) and the
request denied with the remaining TTL; otherwise INCR (an error escapes →
allow), window PEXPIRE exactly on the 1-transition (an error escapes →
allow, with the increment already applied), then the limit comparison. -/
def recordRequest (cfg : AbuseConfig) (fails : AbuseCmdFailures)
    (conn : Option AbuseState) (identifier : String) :
    AbuseDecision × Option AbuseState :=
  match conn with
  | none => (.allowed, none)
  | some s =>
    let key := toLowerKey identifier
    if fails.whitelistExistsFails then (.allowed, some s)
    else if s.whitelist.contains key then (.allowed, some s)
    else
      let banned := if fails.banExistsFails then false
        else (s.banKeys.lookup key).isSome
      if banned then
        if fails.banTtlFails then (.allowed, some s)
        else (.deniedBanned ((s.banKeys.lookup key).getD 0), some s)
      else if fails.incrFails then (.allowed, some s)
      else
        let count := (s.counts.lookup key).getD 0 + 1
        let s1 := { s with counts := setKey s.counts key count }
        if count = 1 then
          if fails.pexpireFails then (.allowed, some s1)
          else
            let s2 := { s1 with countTtl := setKey s1.countTtl key cfg.timeWindowMs }
            afterIncr cfg fails key count s2
        else afterIncr cfg fails key count s1

/-! ## Pending tracker under Redis failures (C10) -/

/-- Which Redis commands of the pending tracker raise an error. -/
structure RedisFailure where
  incrbyFails : Bool
  expireFails : Bool
  decrbyFails : Bool
  delFails : Bool
deriving DecidableEq, Repr

/-- Redis INCRBY as a fallible command. -/
def incrByCmd (f : RedisFailure) (s : PendingKey) (n : Int) :
    Except String (Int × PendingKey) :=
  if f.incrbyFails then .error "incrby failed" else .ok (redisIncrBy s n)

/-- The one-hour EXPIRE as a fallible command (TTL itself not tracked). -/
def expireCmd (f : RedisFailure) : Except String Unit :=
  if f.expireFails then .error "expire failed" else .ok ()

/-- Redis DECRBY as a fallible command. -/
def decrByCmd (f : RedisFailure) (s : PendingKey) (n : Int) :
    Except String (Int × PendingKey) :=
  if f.decrbyFails then .error "decrby failed" else .ok (redisDecrBy s n)

/-- Redis DEL as a fallible command. -/
def delCmd (f : RedisFailure) : Except String PendingKey :=
  if f.delFails then .error "del failed" else .ok none

/-- PendingMintTracker.incrementPending with the Redis layer explicit:
unavailable → 0; an INCRBY error is caught → 0 with the state untouched; an
EXPIRE error is caught → 0 with the increment already applied. The function
is total: no error leaves it. -/
def incrementPendingF (avail : Bool) (f : RedisFailure) (s : PendingKey) (n : Int) :
    Int × PendingKey :=
  if !avail then (0, s)
  else
    match incrByCmd f s n with
    | .error _ => (0, s)
    | .ok (newCount, s1) =>
      match expireCmd f with
      | .error _ => (0, s1)
      | .ok _ => (newCount, s1)

/-- PendingMintTracker.decrementPending with the Redis layer explicit:
unavailable → 0; a DECRBY error is caught → 0; when the new count is ≤ 0 the
key is DELeted (a DEL error is caught, leaving the decremented value in
place) and 0 is returned. The function is total: no error leaves it. -/
def decrementPendingF (avail : Bool) (f : RedisFailure) (s : PendingKey) (n : Int) :
    Int × PendingKey :=
  if !avail then (0, s)
  else
    match decrByCmd f s n with
    | .error _ => (0, s)
    | .ok (newCount, s1) =>
      if newCount ≤ 0 then
        match delCmd f with
        | .error _ => (0, s1)
        | .ok s2 => (0, s2)
      else (newCount, s1)

/-- reserveCapacity over the fallible layer: increment, result discarded. -/
def reserveCapacityF (avail : Bool) (f : RedisFailure) (s : PendingKey) (n : Int) :
    PendingKey :=
  (incrementPendingF avail f s n).2

/-- releaseCapacity over the fallible layer: decrement, result discarded. -/
def releaseCapacityF (avail : Bool) (f : RedisFailure) (s : PendingKey) (n : Int) :
    PendingKey :=
  (decrementPendingF avail f s n).2

/-- Outcome of Step 5 of handleMintRequest. -/
inductive Step5Result
  | proceed (pending : PendingKey)
  | reserveFailed503 (pending : PendingKey)
deriving DecidableEq, Repr

/-- Step 5 of handleMintRequest: `try { await reserveCapacity(...) } catch {
return 503 }`. reserveCapacityF is a total function — incrementPending
catches every Redis command error internally — so the catch guards a call
that cannot throw; the 503 arm is never taken through a Redis failure. -/
def mintStep5 (avail : Bool) (f : RedisFailure) (s : PendingKey) (n : Int) :
    Step5Result :=
  .proceed (reserveCapacityF avail f s n)

/-! ## Redis connection pool acquire (C8) -/

/-- ioredis connection status, reduced to what acquire() branches on. -/
inductive ConnStatus
  | ready
  | connecting
  | closed
deriving DecidableEq, Repr

/-- One pooled connection: its id, status and whether the bounded ping
inside acquire() would succeed on it. -/
structure PoolConn where
  connId : Nat
  status : ConnStatus
  pingOk : Bool
deriving DecidableEq, Repr

/-- Pool state fragment read by acquire(): the free list (the JS array, with
the element `pop()` returns listed first), connections.length, options.max
and the shutdown flag. -/
structure PoolState where
  available : List PoolConn
  total : Nat
  maxConns : Nat
  isShuttingDown : Bool
deriving DecidableEq, Repr

/-- The validation loop of acquire(): pop until a popped connection is ready
and passes the bounded ping; a failing one is removed from the pool (total
drops). Returns the validated connection, if any, the remaining free list
and the new total. -/
def popValidate : List PoolConn → Nat → Option PoolConn × List PoolConn × Nat
  | [], total => (none, [], total)
  | c :: rest, total =>
    if c.status = ConnStatus.ready ∧ c.pingOk = true then (some c, rest, total)
    else popValidate rest (total - 1)

/-- Outcome of the createConnection attempt inside acquire(). -/
inductive CreateOutcome
  | created (c : PoolConn)
  | createFailed
deriving DecidableEq, Repr

/-- acquire(): null when shutting down; otherwise validate pops from the
free list; when none survive and total < max, try to create (a created
connection is pushed and immediately popped; a create failure falls
through); otherwise wait — `waiter` is the connection handed over by a
release() before the acquire timeout, and `none` means the timeout fired
first, in which case the source resolves null. -/
def acquire (s : PoolState) (create : CreateOutcome) (waiter : Option PoolConn) :
    Option PoolConn :=
  if s.isShuttingDown then none
  else
    match popValidate s.available s.total with
    | (some c, _, _) => some c
    | (none, _, total1) =>
      if total1 < s.maxConns then
        match create with
        | .created c => some c
        | .createFailed => waiter
      else waiter

/-- RedisConnectionPool.execute: acquire; when acquire gives null, log and
return null; otherwise run the command on the connection (command errors
propagate) and release it. -/
def executeCmd (s : PoolState) (create : CreateOutcome) (waiter : Option PoolConn)
    (run : PoolConn → Except String Nat) : Option (Except String Nat) :=
  match acquire s create waiter with
  | none => none
  | some c => some (run c)

/-! ## Batch settlement coalescer (BatchSettleManager) -/

/-- One queued settle item; the payment payload and requirements are opaque
to the coalescer, collapsed into one field. -/
structure SItem where
  requestId : String
  payload : Nat
deriving DecidableEq, Repr

/-- The per-item outcome of the re-verify POST to /verify, reduced to the
fields batchSettle reads: `valid` is isValid (false as well for a non-ok
HTTP status or a fetch exception) and `reason` is invalidReason (or the
status / exception message), possibly absent. -/
structure Verdict where
  valid : Bool
  reason : Option String
deriving DecidableEq, Repr

/-- One positional entry of the facilitator's /settle/batch results array. -/
structure FacSettleResult where
  success : Bool
  transaction : Option String
  nonce : Nat
  error : Option String
deriving DecidableEq, Repr

/-- Mirrors interface SettleResult. -/
structure SettleResult where
  requestId : String
  success : Bool
  transaction : Option String
  nonce : Option Nat
  error : Option String
deriving DecidableEq, Repr

/-- validItems: the items whose re-verify succeeded, in order. -/
def validOf (items : List SItem) (verdicts : List Verdict) : List SItem :=
  ((items.zip verdicts).filter (fun p => p.2.valid)).map (fun p => p.1)

/-- invalidItems: the (item, verdict) pairs whose re-verify failed, in
order. -/
def invalidOf (items : List SItem) (verdicts : List Verdict) :
    List (SItem × Verdict) :=
  (items.zip verdicts).filter (fun p => !p.2.valid)

/-- Helper for validIndexOf: index of the last occurrence of a key,
offsetting indices by `base`. -/
def lastIndexOfAux (ids : List String) (k : String) (base : Nat) : Option Nat :=
  match ids with
  | [] => none
  | id :: rest =>
    match lastIndexOfAux rest k (base + 1) with
    | some j => some j
    | none => if id == k then some base else none

/-- The JS `new Map(validItems.map((item, index) => [item.requestId,
index]))`: later entries overwrite earlier ones, so lookup yields the index
of the LAST occurrence of the requestId. -/
def validIndexOf (ids : List String) (k : String) : Option Nat :=
  lastIndexOfAux ids k 0

/-- List.mapM specialised to Option, written recursively for easy
reasoning: all-or-nothing as in JS where an undefined array index access
throws. -/
def mapOpt {α β : Type} (f : α → Option β) : List α → Option (List β)
  | [] => some []
  | a :: l =>
    match f a, mapOpt f l with
    | some b, some bs => some (b :: bs)
    | _, _ => none

/-- One iteration of batchSettle's demux loop over the original items: a
valid item indexes the positional results array (a missing entry is the JS
undefined whose member access throws, hence `none`); an invalid item gets
`Verification failed: <reason>` with reason defaulting to 'unknown'. -/
def settleResultFor (validIds : List String) (invalidItems : List (SItem × Verdict))
    (rs : List FacSettleResult) (item : SItem) : Option SettleResult :=
  match validIndexOf validIds item.requestId with
  | some i =>
    (rs.get? i).map (fun r =>
      { requestId := item.requestId, success := r.success
        transaction := r.transaction, nonce := some r.nonce, error := r.error })
  | none =>
    let reason := (invalidItems.find? (fun inv => inv.1.requestId == item.requestId)).bind
      (fun inv => inv.2.reason)
    some { requestId := item.requestId, success := false, transaction := none
           nonce := none, error := some ("Verification failed: " ++ jsOrElse reason "unknown") }

/-- What one batchSettle call did: the body of the POST to /settle/batch,
when that POST was made at all, and the outcome (a throw or the final
per-item result list). -/
structure BatchCall where
  posted : Option (List SItem)
  results : Except String (List SettleResult)
deriving Repr

/-- BatchSettleManager.batchSettle: re-verify every item (verdicts are
positional), split into valid and invalid; with no valid item, return
failure results for every item without calling /settle/batch; otherwise POST
the valid items (`fac` is that call's outcome: a transport/non-ok throw or
the positional results array) and demux per original item. -/
def batchSettle (items : List SItem) (verdicts : List Verdict)
    (fac : Except String (List FacSettleResult)) : BatchCall :=
  let validItems := validOf items verdicts
  let invalidItems := invalidOf items verdicts
  if validItems.isEmpty then
    { posted := none
      results := Except.ok (items.map (fun it =>
        { requestId := it.requestId, success := false, transaction := none
          nonce := none, error := some "All payments failed verification" })) }
  else
    match fac with
    | .error e =>
      { posted := some validItems
        results := Except.error ("Facilitator batch settle failed: " ++ e) }
    | .ok rs =>
      match mapOpt (settleResultFor (validItems.map (fun it => it.requestId))
          invalidItems rs) items with
      | some finalResults => { posted := some validItems, results := Except.ok finalResults }
      | none => { posted := some validItems
                  results := Except.error "TypeError: undefined settle result" }

/-- How flush completes one demuxed result: a successful result resolves the
enqueuer's promise with it; a failed one rejects with
`new Error(result.error || 'Settle failed')`. -/
def settleCompletion (r : SettleResult) : Except String SettleResult :=
  if r.success then Except.ok r else Except.error (jsOrElse r.error "Settle failed")

/-- BatchSettleManager.flush: drain up to batchSize items in insertion
order, call batchSettle, then complete each returned result and delete its
item from the queue; when batchSettle throws, every batch item is rejected
with the transport error and deleted. Returns the ordered completion list
(requestId, resolution) and the remaining queue. -/
def flush (queue : List SItem) (batchSize : Nat) (verdicts : List Verdict)
    (fac : Except String (List FacSettleResult)) :
    List (String × Except String SettleResult) × List SItem :=
  let batchItems := queue.take batchSize
  let call := batchSettle batchItems verdicts fac
  match call.results with
  | .ok rs =>
    (rs.map (fun r => (r.requestId, settleCompletion r)),
     queue.filter (fun it => !(rs.any (fun r => r.requestId == it.requestId))))
  | .error e =>
    (batchItems.map (fun it => (it.requestId, Except.error e)),
     queue.filter (fun it => !(batchItems.any (fun b => b.requestId == it.requestId))))

/-! ## Theorems -/

/-- C2: checkCapacity throws CAPACITY_EXCEEDED iff
currentMintCount + pendingCount + requestedCount > maxMintCount; otherwise it
returns a capacity info whose availableSlots is
maxMintCount − currentMintCount − pendingCount; with max=100, current=95,
pending=3 and n=5 it fails with availableSlots = 2 in the attached info. -/
theorem checkCapacity_capacity_exceeded (m c p n : Int) :
    ((∃ e, checkCapacity m c p n = Except.error e) ↔ c + p + n > m)
    ∧ (∀ info, checkCapacity m c p n = Except.ok info →
        info.availableSlots = m - c - p)
    ∧ (∀ e, checkCapacity m c p n = Except.error e →
        e.code = "CAPACITY_EXCEEDED" ∧ e.capacityInfo.availableSlots = m - c - p)
    ∧ checkCapacity 100 95 3 5 = Except.error
        { code := "CAPACITY_EXCEEDED"
          capacityInfo := { maxMintCount := 100, currentMintCount := 95
                            pendingCount := 3, availableSlots := 2 } } := by
  refine ⟨?_, ?_, ?_, rfl⟩
  · by_cases h : c + p + n > m <;> simp [checkCapacity, h]
  · intro info hinfo
    by_cases h : c + p + n > m <;> simp [checkCapacity, h] at hinfo
    rw [← hinfo]
  · intro e he
    by_cases h : c + p + n > m <;> simp [checkCapacity, h] at he
    rw [← he]
    exact ⟨rfl, rfl⟩

/-- Witness for C2 at the spec's concrete scenario. -/
theorem checkCapacity_capacity_exceeded_witness :
    checkCapacity 100 95 3 5 = Except.error
      { code := "CAPACITY_EXCEEDED"
        capacityInfo := { maxMintCount := 100, currentMintCount := 95
                          pendingCount := 3, availableSlots := 2 } }
    ∧ ({ code := "CAPACITY_EXCEEDED"
         capacityInfo := { maxMintCount := 100, currentMintCount := 95
                           pendingCount := 3, availableSlots := 2 } } :
        CapacityError).capacityInfo.availableSlots = 100 - 95 - 3 := by
  have h := checkCapacity_capacity_exceeded 100 95 3 5
  exact ⟨h.2.2.2, (h.2.2.1 _ h.2.2.2).2⟩

/-- Release after reserve restores a well-formed pending key exactly. -/
theorem release_after_reserve (pending0 : PendingKey) (n : Int)
    (hwf : ∀ v, pending0 = some v → 0 < v) :
    releaseCapacity (reserveCapacity pending0 n) n = pending0 := by
  cases pending0 with
  | none =>
    have h0 : reserveCapacity (none : PendingKey) n = some (0 + n) := rfl
    rw [h0]
    have hle : (0 + n) - n ≤ 0 := by omega
    simp [releaseCapacity, decrementPending, redisDecrBy, hle]
  | some v =>
    have hv := hwf v rfl
    have h0 : reserveCapacity (some v) n = some (v + n) := rfl
    rw [h0]
    have hgt : ¬ ((v + n) - n ≤ 0) := by omega
    show (if (v + n) - n ≤ 0 then ((0 : Int), (none : PendingKey))
          else ((v + n) - n, some ((v + n) - n))).2 = some v
    rw [if_neg hgt]
    show some ((v + n) - n) = some v
    congr 1
    omega

/-- C1: in handleMintRequest, once capacity is reserved, every failure path
up to the success response — settle rejection (any reason), settle response
with success=false or error set, and settle response missing a transaction
id — releases the same count before the HTTP response, so on every non-200
outcome the pending_mint key returns to its pre-reserve value. -/
theorem mint_reserve_compensation (pending0 : PendingKey) (n : Int)
    (outcome : SettleOutcome)
    (hwf : ∀ v, pending0 = some v → 0 < v)
    (hfail : (mintFromReserve pending0 n outcome).1 ≠ 200) :
    (mintFromReserve pending0 n outcome).2 = pending0 := by
  have hrel := release_after_reserve pending0 n hwf
  cases outcome with
  | err reason =>
    by_cases h1 : reason = some "mempool_capacity_exceeded" <;>
      by_cases h2 : reason = some "chain_query_failed" <;>
        simp [mintFromReserve, h1, h2, hrel]
  | ok tx =>
    by_cases h : jsOrElse tx "" = "" <;> simp [mintFromReserve, h, hrel]

/-- Witness for C1: an empty pending key, one recipient, and a settle
rejection without a reason field (the shape a coalescer rejection has). -/
theorem mint_reserve_compensation_witness :
    (mintFromReserve none 1 (SettleOutcome.err none)).1 = 500
    ∧ (mintFromReserve none 1 (SettleOutcome.err none)).2 = none := by
  refine ⟨by decide, ?_⟩
  exact mint_reserve_compensation none 1 (SettleOutcome.err none)
    (fun v h => by simp at h) (by decide)

/-- Folding reserves over a present key adds the total reserved count. -/
theorem runPendingOps_reserve_fold (rs : List Nat) (v : Int) :
    runPendingOps (some v) (rs.map PendingOp.reserve) = some (v + (rs.sum : Int)) := by
  induction rs generalizing v with
  | nil => simp [runPendingOps]
  | cons r rs ih =>
    have step : applyPendingOp (some v) (PendingOp.reserve r) = some (v + (r : Int)) := by
      simp [applyPendingOp, reserveCapacity, incrementPending, redisIncrBy]
    simp only [List.map_cons, runPendingOps, List.foldl_cons]
    rw [show applyPendingOp (some v) (PendingOp.reserve r) = some (v + (r : Int)) from step]
    have := ih (v + (r : Int))
    simp only [runPendingOps] at this
    rw [this]
    congr 1
    rw [List.sum_cons, Nat.cast_add]
    ring

/-- Folding releases over an absent key keeps it absent. -/
theorem runPendingOps_release_fold_none (ds : List Nat) :
    runPendingOps none (ds.map PendingOp.release) = none := by
  induction ds with
  | nil => rfl
  | cons d ds ih =>
    have step : applyPendingOp none (PendingOp.release d) = none := by
      have : (0 : Int) - (d : Int) ≤ 0 := by omega
      simp [applyPendingOp, releaseCapacity, decrementPending, redisDecrBy, this]
    simp only [List.map_cons, runPendingOps, List.foldl_cons, step]
    exact ih

/-- Folding releases whose total covers the present value deletes the key. -/
theorem runPendingOps_release_fold_some (ds : List Nat) (v : Int)
    (hne : ds ≠ []) (hle : v ≤ (ds.sum : Int)) :
    runPendingOps (some v) (ds.map PendingOp.release) = none := by
  induction ds generalizing v with
  | nil => exact absurd rfl hne
  | cons d ds ih =>
    by_cases h : v - (d : Int) ≤ 0
    · have step : applyPendingOp (some v) (PendingOp.release d) = none := by
        simp [applyPendingOp, releaseCapacity, decrementPending, redisDecrBy, h]
      simp only [List.map_cons, runPendingOps, List.foldl_cons, step]
      exact runPendingOps_release_fold_none ds
    · have step : applyPendingOp (some v) (PendingOp.release d) = some (v - (d : Int)) := by
        simp [applyPendingOp, releaseCapacity, decrementPending, redisDecrBy, h]
      simp only [List.map_cons, runPendingOps, List.foldl_cons, step]
      have hdsne : ds ≠ [] := by
        intro hnil
        subst hnil
        simp at hle
        omega
      have hle2 : v - (d : Int) ≤ (ds.sum : Int) := by
        rw [List.sum_cons, Nat.cast_add] at hle
        omega
      exact ih (v - (d : Int)) hdsne hle2

/-- C6: decrementPending deletes the pending_mint key and returns 0 whenever
the decremented value is ≤ 0, and after any sequence of reserves each matched
by a release of the same count (in any order) the pending count is 0 with the
key absent. -/
theorem pending_counter_conservation (rs ds : List Nat) (s : PendingKey) (n : Int)
    (hperm : ds.Perm rs) (hle : s.getD 0 - n ≤ 0) :
    decrementPending s n = (0, none)
    ∧ runPendingOps none (rs.map PendingOp.reserve ++ ds.map PendingOp.release) = none
    ∧ getPendingCount
        (runPendingOps none (rs.map PendingOp.reserve ++ ds.map PendingOp.release)) = 0 := by
  have hrun : runPendingOps none (rs.map PendingOp.reserve ++ ds.map PendingOp.release)
      = none := by
    rw [show runPendingOps none (rs.map PendingOp.reserve ++ ds.map PendingOp.release)
        = runPendingOps (runPendingOps none (rs.map PendingOp.reserve))
            (ds.map PendingOp.release) from List.foldl_append ..]
    cases rs with
    | nil =>
      have : ds = [] := hperm.eq_nil
      subst this
      rfl
    | cons r rs =>
      have step : applyPendingOp none (PendingOp.reserve r) = some ((0 : Int) + (r : Int)) := by
        simp [applyPendingOp, reserveCapacity, incrementPending, redisIncrBy]
      have hres : runPendingOps none ((r :: rs).map PendingOp.reserve)
          = some ((0 : Int) + (r : Int) + (rs.sum : Int)) := by
        simp only [List.map_cons, runPendingOps, List.foldl_cons, step]
        exact runPendingOps_reserve_fold rs ((0 : Int) + (r : Int))
      rw [hres]
      have hdsne : ds ≠ [] := by
        intro hnil
        subst hnil
        exact List.noConfusion hperm.symm.eq_nil
      have hsum : ds.sum = (r :: rs).sum := hperm.sum_eq
      refine runPendingOps_release_fold_some ds _ hdsne ?_
      rw [hsum, List.sum_cons, Nat.cast_add]
      omega
  refine ⟨?_, hrun, by rw [hrun]; rfl⟩
  simp [decrementPending, redisDecrBy, hle]

/-- Witness for C6: two reserves released in the opposite order. -/
theorem pending_counter_conservation_witness :
    decrementPending none 1 = (0, none)
    ∧ runPendingOps none
        ([2, 3].map PendingOp.reserve ++ [3, 2].map PendingOp.release) = none
    ∧ getPendingCount (runPendingOps none
        ([2, 3].map PendingOp.reserve ++ [3, 2].map PendingOp.release)) = 0 :=
  pending_counter_conservation [2, 3] [3, 2] none 1 (by decide) (by decide)

/-- C7 counterexample: at now = deadline the cache does not report the token
expired (isTokenExpired is strict), yet the mint deadline gate computes
difference = 0 ≤ 0 and returns 410 — so the gate does not fire precisely on
now > deadline as claimed. -/
theorem deadline_gate_strictness_cex :
    isTokenExpired 100 100 = false
    ∧ deadlineGate 100 100 true = DeadlineGateResult.g410remaining 0 := by
  exact ⟨by decide, by decide⟩

/-- C7 amended: isTokenExpired is true iff now > deadline, while the mint
gate returns 410 exactly when now ≥ deadline (no 410 for now < deadline);
when it fires it records one tick against ip:<ip>:expired and answers with
the minimal body iff that record denies, else the remaining-time body. -/
theorem deadline_gate_amended (deadline now : Int) (allowed : Bool) (ip : String) :
    (isTokenExpired deadline now = true ↔ now > deadline)
    ∧ (deadlineGate deadline now allowed = DeadlineGateResult.pass ↔ now < deadline)
    ∧ (deadline ≤ now →
        deadlineGate deadline now allowed =
          if allowed then DeadlineGateResult.g410remaining (deadline - now)
          else DeadlineGateResult.g410minimal)
    ∧ createIdentifier none (some (ip ++ ":expired")) = "ip:" ++ (ip ++ ":expired") := by
  refine ⟨by simp [isTokenExpired], ?_, ?_, rfl⟩
  · by_cases h : deadline - now ≤ 0 <;> cases allowed <;>
      simp [deadlineGate, h] <;> omega
  · intro h
    have hd : deadline - now ≤ 0 := by omega
    cases allowed <;> simp [deadlineGate, hd]

/-- Witness for C7's amended theorem at deadline 5, now 7. -/
theorem deadline_gate_amended_witness :
    isTokenExpired 5 7 = true
    ∧ deadlineGate 5 7 true =
        (if true then DeadlineGateResult.g410remaining (5 - 7)
         else DeadlineGateResult.g410minimal)
    ∧ createIdentifier none (some ("a" ++ ":expired")) = "ip:" ++ ("a" ++ ":expired") := by
  have h := deadline_gate_amended 5 7 true "a"
  exact ⟨h.1.mpr (by norm_num), h.2.2.1 (by norm_num), h.2.2.2⟩

/-- C9: the 402 challenge branch is deterministic — it reads nothing from the
per-request environment (random request id, clock), so two runs on the same
body produce byte-equal JSON bodies and equal X-Payment-Options headers; on
the spec's concrete scenario the header and body are these exact strings,
with amount "10000000". -/
theorem challenge402_deterministic (e1 e2 : HandlerEnv) (t : String) :
    challenge402 e1 t = challenge402 e2 t
    ∧ (challenge402 e1 t).paymentRequired.amount = "10000000"
    ∧ challenge402 ⟨"rid-1", 0⟩ "0xAAAA" =
        { status := 402
          errorMsg := "Payment required"
          message := "Please include X-PAYMENT header with signed authorization"
          paymentRequired :=
            { price := "10 USD4", amount := "10000000", payTo := "0xAAAA"
              token := "0x2CBa817f6e3Ca58ff702Dc66feEEcb230A2EF349"
              tokenName := "USD4", tokenVersion := "1", network := "bsc" }
          xPaymentOptions :=
            "scheme=\"exact\", network=\"bsc\", token=\"0x2CBa817f6e3Ca58ff702Dc66feEEcb230A2EF349\", payee=\"0xAAAA\", amount=\"10000000\"" } := by
  refine ⟨rfl, ?_, by decide⟩
  show toString MINT_PRICE_USDT = "10000000"
  decide

/-- C3 counterexample: with limit 1 and the count key already at 1, the INCR
takes the count to 2 > 1 and banIdentifier's SET fails; that Redis command
error is swallowed inside banIdentifier and the request is still denied —
refuting "when a Redis command errors, recordRequest allows the request". -/
theorem recordRequest_fail_open_cex :
    (recordRequest ⟨1, 3000, 3600000⟩ ⟨false, false, false, false, false, true⟩
        (some ⟨[], [], [("k", 1)], []⟩) "k").1 = AbuseDecision.deniedRateLimited := by
  decide

/-- C3 amended: recordRequest allows a whitelisted identifier; otherwise
denies with the remaining TTL when the ban key exists; otherwise increments
the count key, sets the window TTL exactly when the new count is 1, and when
the count exceeds the limit sets the ban key with the ban duration and
denies, else allows. When Redis is unavailable, or when the whitelist
EXISTS, the ban TTL read, the INCR or the first-request PEXPIRE errors, it
allows (fail open); an error in the ban-existence EXISTS is treated as not
banned; and an error while SETting the ban key is swallowed with the denial
still returned and the ban not recorded. -/
theorem recordRequest_semantics (cfg : AbuseConfig) (fails : AbuseCmdFailures)
    (s : AbuseState) (id : String) :
    recordRequest cfg fails none id = (.allowed, none)
    ∧ (s.whitelist.contains (toLowerKey id) = true →
        recordRequest cfg noAbuseFailures (some s) id = (.allowed, some s))
    ∧ (∀ t, s.whitelist.contains (toLowerKey id) = false →
        s.banKeys.lookup (toLowerKey id) = some t →
        recordRequest cfg noAbuseFailures (some s) id = (.deniedBanned t, some s))
    ∧ (s.whitelist.contains (toLowerKey id) = false →
        s.banKeys.lookup (toLowerKey id) = none →
        recordRequest cfg noAbuseFailures (some s) id =
          (let count := (s.counts.lookup (toLowerKey id)).getD 0 + 1
           let s1 := { s with counts := setKey s.counts (toLowerKey id) count }
           let s2 := if count = 1 then
               { s1 with countTtl := setKey s1.countTtl (toLowerKey id) cfg.timeWindowMs }
             else s1
           if count > cfg.maxRequestsPerWindow then
             (.deniedRateLimited,
              some { s2 with banKeys := setKey s2.banKeys (toLowerKey id) cfg.banDurationMs })
           else (.allowed, some s2)))
    ∧ (fails.whitelistExistsFails = true →
        (recordRequest cfg fails (some s) id).1 = .allowed)
    ∧ (fails.whitelistExistsFails = false → fails.incrFails = true →
        s.whitelist.contains (toLowerKey id) = false →
        (fails.banExistsFails = true ∨ s.banKeys.lookup (toLowerKey id) = none) →
        (recordRequest cfg fails (some s) id).1 = .allowed)
    ∧ (fails.whitelistExistsFails = false → fails.banExistsFails = false →
        fails.banTtlFails = true →
        s.whitelist.contains (toLowerKey id) = false →
        (s.banKeys.lookup (toLowerKey id)).isSome = true →
        (recordRequest cfg fails (some s) id).1 = .allowed)
    ∧ (fails.whitelistExistsFails = false → fails.banExistsFails = false →
        fails.incrFails = false → fails.pexpireFails = true →
        s.whitelist.contains (toLowerKey id) = false →
        s.banKeys.lookup (toLowerKey id) = none →
        (s.counts.lookup (toLowerKey id)).getD 0 + 1 = 1 →
        (recordRequest cfg fails (some s) id).1 = .allowed)
    ∧ (fails = { noAbuseFailures with banSetFails := true } →
        s.whitelist.contains (toLowerKey id) = false →
        s.banKeys.lookup (toLowerKey id) = none →
        (s.counts.lookup (toLowerKey id)).getD 0 + 1 > cfg.maxRequestsPerWindow →
        (recordRequest cfg fails (some s) id).1 = .deniedRateLimited
        ∧ ∀ s2, (recordRequest cfg fails (some s) id).2 = some s2 →
            s2.banKeys = s.banKeys) := by
  refine ⟨rfl, ?_, ?_, ?_, ?_, ?_, ?_, ?_, ?_⟩
  · intro hwl
    have hwl2 : toLowerKey id ∈ s.whitelist := by simpa using hwl
    simp [recordRequest, noAbuseFailures, hwl2]
  · intro t hwl hban
    have hwl2 : toLowerKey id ∉ s.whitelist := by simpa using hwl
    simp [recordRequest, noAbuseFailures, hwl2, hban]
  · intro hwl hban
    have hwl2 : toLowerKey id ∉ s.whitelist := by simpa using hwl
    by_cases hc : (s.counts.lookup (toLowerKey id)).getD 0 = 0 <;>
      by_cases hm : (s.counts.lookup (toLowerKey id)).getD 0 + 1 > cfg.maxRequestsPerWindow <;>
        simp [recordRequest, afterIncr, noAbuseFailures, hwl2, hban, hc, hm]
  · intro hwf
    simp [recordRequest, hwf]
  · intro hwf hincr hwl hban
    have hwl2 : toLowerKey id ∉ s.whitelist := by simpa using hwl
    rcases hban with hbe | hbn
    · simp [recordRequest, hwf, hincr, hwl2, hbe]
    · by_cases hbe : fails.banExistsFails <;>
        simp [recordRequest, hwf, hincr, hwl2, hbe, hbn]
  · intro hwf hbe httl hwl hbs
    have hwl2 : toLowerKey id ∉ s.whitelist := by simpa using hwl
    simp [recordRequest, hwf, hbe, httl, hwl2, hbs]
  · intro hwf hbe hincr hpex hwl hban hc
    have hwl2 : toLowerKey id ∉ s.whitelist := by simpa using hwl
    have hc2 : (s.counts.lookup (toLowerKey id)).getD 0 = 0 := by omega
    simp [recordRequest, hwf, hbe, hincr, hpex, hwl2, hban, hc2]
  · intro hf hwl hban hm
    have hwl2 : toLowerKey id ∉ s.whitelist := by simpa using hwl
    subst hf
    by_cases hc : (s.counts.lookup (toLowerKey id)).getD 0 = 0
    · have hm0 : cfg.maxRequestsPerWindow = 0 := by omega
      have hres : recordRequest cfg { noAbuseFailures with banSetFails := true }
          (some s) id =
          (AbuseDecision.deniedRateLimited, some
            { s with
              counts := setKey s.counts (toLowerKey id)
                ((s.counts.lookup (toLowerKey id)).getD 0 + 1)
              countTtl := setKey s.countTtl (toLowerKey id) cfg.timeWindowMs }) := by
        simp [recordRequest, afterIncr, noAbuseFailures, hwl2, hban, hc, hm, hm0]
      refine ⟨by rw [hres], ?_⟩
      intro s2 hs2
      rw [hres] at hs2
      rw [← Option.some.inj hs2]
    · have hres : recordRequest cfg { noAbuseFailures with banSetFails := true }
          (some s) id =
          (AbuseDecision.deniedRateLimited, some
            { s with
              counts := setKey s.counts (toLowerKey id)
                ((s.counts.lookup (toLowerKey id)).getD 0 + 1) }) := by
        simp [recordRequest, afterIncr, noAbuseFailures, hwl2, hban, hc, hm]
      refine ⟨by rw [hres], ?_⟩
      intro s2 hs2
      rw [hres] at hs2
      rw [← Option.some.inj hs2]

/-- Witness for C3's amended theorem: the unavailable case, a banned
identifier, and the swallowed ban-SET denial, at concrete states. -/
theorem recordRequest_semantics_witness :
    recordRequest ⟨1, 3000, 3600000⟩ noAbuseFailures none "k" =
      (AbuseDecision.allowed, none)
    ∧ recordRequest ⟨1, 3000, 3600000⟩ noAbuseFailures
        (some ⟨[], [("k", 7)], [], []⟩) "k" =
      (AbuseDecision.deniedBanned 7, some ⟨[], [("k", 7)], [], []⟩)
    ∧ (recordRequest ⟨1, 3000, 3600000⟩ { noAbuseFailures with banSetFails := true }
        (some ⟨[], [], [("k", 1)], []⟩) "k").1 = AbuseDecision.deniedRateLimited := by
  refine ⟨(recordRequest_semantics ⟨1, 3000, 3600000⟩ noAbuseFailures ⟨[], [], [], []⟩ "k").1,
    (recordRequest_semantics ⟨1, 3000, 3600000⟩ noAbuseFailures
      ⟨[], [("k", 7)], [], []⟩ "k").2.2.1 7 (by decide) (by decide),
    ((recordRequest_semantics ⟨1, 3000, 3600000⟩
      { noAbuseFailures with banSetFails := true }
      ⟨[], [], [("k", 1)], []⟩ "k").2.2.2.2.2.2.2.2 rfl (by decide) (by decide)
      (by decide)).1⟩

/-- C10 counterexample: with Redis up and only the one-hour EXPIRE failing,
incrementPending returns 0 (the error is caught) but the INCRBY has already
run: reserveCapacity leaves pending_mint at 1 — the reserve was not a no-op
and a reservation WAS recorded, refuting "silent no-ops with no reservation
recorded" for this failure mode. -/
theorem pending_failure_noop_cex :
    incrementPendingF true ⟨false, true, false, false⟩ none 1 = (0, some 1)
    ∧ reserveCapacityF true ⟨false, true, false, false⟩ none 1 = some 1
    ∧ some (1 : Int) ≠ (none : PendingKey) := by
  exact ⟨by decide, by decide, by decide⟩

/-- C10 amended: incrementPending and decrementPending never throw and
return 0 when Redis is unavailable or any of their commands fails; when
Redis is unavailable or the INCRBY (resp. DECRBY) itself fails the state is
untouched, so reserve and release are silent no-ops with no reservation
recorded, the 503 reserve-failure branch is unreachable through a Redis
failure, and the request proceeds to settlement; but when the EXPIRE (resp.
DEL) fails after a successful INCRBY (resp. DECRBY), 0 is returned while the
state change persists. -/
theorem pending_failure_semantics (f : RedisFailure) (s : PendingKey) (n : Int) :
    incrementPendingF false f s n = (0, s)
    ∧ decrementPendingF false f s n = (0, s)
    ∧ (f.incrbyFails = true → incrementPendingF true f s n = (0, s))
    ∧ (f.decrbyFails = true → decrementPendingF true f s n = (0, s))
    ∧ (f.incrbyFails = false → f.expireFails = true →
        incrementPendingF true f s n = (0, some (s.getD 0 + n)))
    ∧ (f.decrbyFails = false → f.delFails = true → s.getD 0 - n ≤ 0 →
        decrementPendingF true f s n = (0, some (s.getD 0 - n)))
    ∧ mintStep5 false f s n = .proceed s
    ∧ (∀ avail, mintStep5 avail f s n = .proceed (reserveCapacityF avail f s n)) := by
  refine ⟨rfl, rfl, ?_, ?_, ?_, ?_, ?_, fun _ => rfl⟩
  · intro h
    simp [incrementPendingF, incrByCmd, h]
  · intro h
    simp [decrementPendingF, decrByCmd, h]
  · intro h1 h2
    simp [incrementPendingF, incrByCmd, expireCmd, redisIncrBy, h1, h2]
  · intro h1 h2 h3
    simp [decrementPendingF, decrByCmd, delCmd, redisDecrBy, h1, h2, h3]
  · show Step5Result.proceed (reserveCapacityF false f s n) = Step5Result.proceed s
    simp [reserveCapacityF, incrementPendingF]

/-- Witness for C10's amended theorem: EXPIRE and DEL fail with the commands
before them succeeding. -/
theorem pending_failure_semantics_witness :
    incrementPendingF true ⟨false, true, false, true⟩ none 1 =
      (0, some ((0 : Int) + 1))
    ∧ decrementPendingF true ⟨false, true, false, true⟩ none 1 =
      (0, some ((0 : Int) - 1))
    ∧ mintStep5 false ⟨false, true, false, true⟩ none 1 = .proceed none := by
  have h := pending_failure_semantics ⟨false, true, false, true⟩ none 1
  exact ⟨h.2.2.2.2.1 rfl rfl, h.2.2.2.2.2.1 rfl rfl (by decide), h.2.2.2.2.2.2.1⟩

/-- C8 counterexample: free list empty, pool at max (2 of 2), no release
before the acquire timeout — acquire resolves null (none), not a typed
timeout error, and execute in turn returns null. -/
theorem acquire_timeout_null_cex :
    acquire ⟨[], 2, 2, false⟩ CreateOutcome.createFailed none = none
    ∧ executeCmd ⟨[], 2, 2, false⟩ CreateOutcome.createFailed none
        (fun c => Except.ok c.connId) = none := by
  exact ⟨rfl, rfl⟩

/-- C8 amended: when the free list is exhausted, the pool is at max and no
connection is released within the acquire timeout, the waiting caller
receives null (the timeout callback resolves null), and execute() maps that
null to a null return — acquisition failure is reported as null, not as a
typed error. -/
theorem acquire_timeout_null (s : PoolState) (create : CreateOutcome)
    (run : PoolConn → Except String Nat)
    (hfree : s.available = []) (hmax : s.maxConns ≤ s.total)
    (hdown : s.isShuttingDown = false) :
    acquire s create none = none
    ∧ executeCmd s create none run = none := by
  rcases s with ⟨avail, total, maxC, down⟩
  simp only at hfree hmax hdown
  subst hfree
  subst hdown
  have hlt : ¬ (total < maxC) := by omega
  have hacq : acquire ⟨[], total, maxC, false⟩ create none = none := by
    simp [acquire, popValidate, hlt]
  exact ⟨hacq, by simp [executeCmd, hacq]⟩

/-- mapOpt preserves length. -/
theorem mapOpt_length {α β : Type} (f : α → Option β) (l : List α) (m : List β)
    (h : mapOpt f l = some m) : m.length = l.length := by
  induction l generalizing m with
  | nil =>
    simp [mapOpt] at h
    subst h
    rfl
  | cons a t ih =>
    simp only [mapOpt] at h
    cases hfa : f a <;> rw [hfa] at h
    · simp at h
    · cases hmt : mapOpt f t <;> rw [hmt] at h
      · simp at h
      · simp at h
        subst h
        simp [ih _ hmt]

/-- mapOpt succeeds when every element does. -/
theorem mapOpt_isSome_of_forall {α β : Type} (f : α → Option β) (l : List α)
    (h : ∀ a ∈ l, (f a).isSome = true) : ∃ m, mapOpt f l = some m := by
  induction l with
  | nil => exact ⟨[], rfl⟩
  | cons a t ih =>
    obtain ⟨m, hm⟩ := ih (fun x hx => h x (List.mem_cons_of_mem a hx))
    obtain ⟨b, hb⟩ := Option.isSome_iff_exists.mp (h a (List.mem_cons_self a t))
    exact ⟨b :: m, by simp [mapOpt, hb, hm]⟩

/-- Image membership through mapOpt. -/
theorem mapOpt_mem {α β : Type} (f : α → Option β) (l : List α) (m : List β)
    (h : mapOpt f l = some m) (a : α) (ha : a ∈ l) (b : β) (hb : f a = some b) :
    b ∈ m := by
  induction l generalizing m with
  | nil => simp at ha
  | cons x t ih =>
    simp only [mapOpt] at h
    cases hfx : f x <;> rw [hfx] at h
    · simp at h
    · cases hmt : mapOpt f t <;> rw [hmt] at h
      · simp at h
      · simp at h
        subst h
        rcases List.mem_cons.mp ha with rfl | hat
        · rw [hfx] at hb
          simp at hb
          subst hb
          exact List.mem_cons_self _ _
        · exact List.mem_cons_of_mem _ (ih _ hmt hat)

/-- A projection that f carries over from input to output commutes with
mapOpt. -/
theorem mapOpt_map_key {α β γ : Type} (f : α → Option β) (g : β → γ) (k : α → γ)
    (hfg : ∀ a b, f a = some b → g b = k a) (l : List α) (m : List β)
    (h : mapOpt f l = some m) : m.map g = l.map k := by
  induction l generalizing m with
  | nil =>
    simp [mapOpt] at h
    subst h
    rfl
  | cons a t ih =>
    simp only [mapOpt] at h
    cases hfa : f a <;> rw [hfa] at h
    · simp at h
    · cases hmt : mapOpt f t <;> rw [hmt] at h
      · simp at h
      · simp at h
        subst h
        simp [hfg a _ hfa, ih _ hmt]

/-- A key that is absent is not found. -/
theorem lastIndexOfAux_of_not_mem (ids : List String) (k : String) :
    ∀ (base : Nat), k ∉ ids → lastIndexOfAux ids k base = none := by
  induction ids with
  | nil => intro base _; rfl
  | cons id rest ih =>
    intro base h
    have h1 : k ∉ rest := fun hm => h (List.mem_cons_of_mem _ hm)
    have h2 : id ≠ k := fun he => h (he ▸ List.mem_cons_self _ _)
    simp [lastIndexOfAux, ih (base + 1) h1, beq_eq_false_iff_ne.mpr h2]

/-- Under nodup, the last index of a present key is its unique index. -/
theorem lastIndexOfAux_get (ids : List String) (k : String) :
    ∀ (base i : Nat) (hi : i < ids.length), ids.Nodup → ids.get ⟨i, hi⟩ = k →
      lastIndexOfAux ids k base = some (base + i) := by
  induction ids with
  | nil => intro base i hi; simp at hi
  | cons id rest ih =>
    intro base i hi hnd hk
    cases i with
    | zero =>
      have hid : id = k := hk
      have hnm : k ∉ rest := fun hm => (List.nodup_cons.mp hnd).1 (hid ▸ hm)
      simp [lastIndexOfAux, lastIndexOfAux_of_not_mem rest k (base + 1) hnm,
        beq_iff_eq.mpr hid]
    | succ j =>
      have hj : j < rest.length := by simpa using hi
      have hkr : rest.get ⟨j, hj⟩ = k := hk
      have hrec := ih (base + 1) j hj (List.nodup_cons.mp hnd).2 hkr
      simp [lastIndexOfAux, hrec]
      omega

/-- A found index is in range (relative to base). -/
theorem lastIndexOfAux_lt (ids : List String) (k : String) :
    ∀ (base j : Nat), lastIndexOfAux ids k base = some j →
      base ≤ j ∧ j < base + ids.length := by
  induction ids with
  | nil => intro base j h; simp [lastIndexOfAux] at h
  | cons id rest ih =>
    intro base j h
    simp only [lastIndexOfAux] at h
    cases haux : lastIndexOfAux rest k (base + 1) <;> rw [haux] at h
    · by_cases hbeq : (id == k) = true <;> simp [hbeq] at h
      subst h
      simp only [List.length_cons]
      omega
    · simp at h
      subst h
      have := ih (base + 1) _ haux
      simp only [List.length_cons]
      omega

/-- validIndexOf finds the unique index under nodup. -/
theorem validIndexOf_get (ids : List String) (i : Nat) (hnd : ids.Nodup)
    (hi : i < ids.length) : validIndexOf ids (ids.get ⟨i, hi⟩) = some i := by
  have h := lastIndexOfAux_get ids (ids.get ⟨i, hi⟩) 0 i hi hnd rfl
  simpa [validIndexOf] using h

/-- A found validIndexOf is in range. -/
theorem validIndexOf_lt (ids : List String) (k : String) (j : Nat)
    (h : validIndexOf ids k = some j) : j < ids.length := by
  have := lastIndexOfAux_lt ids k 0 j h
  omega

/-- An absent key has no validIndexOf. -/
theorem validIndexOf_of_not_mem (ids : List String) (k : String) (h : k ∉ ids) :
    validIndexOf ids k = none :=
  lastIndexOfAux_of_not_mem ids k 0 h

/-- find? by key returns the unique element carrying that key. -/
theorem find?_key_unique {α : Type} (key : α → String) (l : List α) (a : α)
    (ha : a ∈ l) (huniq : ∀ b ∈ l, key b = key a → b = a) :
    l.find? (fun b => key b == key a) = some a := by
  induction l with
  | nil => simp at ha
  | cons x t ih =>
    by_cases hx : key x = key a
    · have hxa : x = a := huniq x (List.mem_cons_self _ _) hx
      subst hxa
      simp [List.find?]
    · have hbeq : (key x == key a) = false := beq_eq_false_iff_ne.mpr hx
      have hat : a ∈ t := by
        rcases List.mem_cons.mp ha with rfl | hmem
        · exact absurd rfl hx
        · exact hmem
      rw [List.find?]
      rw [hbeq]
      exact ih hat (fun b hb hkb => huniq b (List.mem_cons_of_mem _ hb) hkb)

/-- Association-list lookup built from a keyed map hits the unique element
with that key. -/
theorem lookup_assoc_of_nodup {α β : Type} (key : α → String) (g : α → β)
    (l : List α) (hnd : (l.map key).Nodup) (a : α) (ha : a ∈ l) :
    (l.map (fun x => (key x, g x))).lookup (key a) = some (g a) := by
  induction l with
  | nil => simp at ha
  | cons x t ih =>
    rcases List.mem_cons.mp ha with rfl | hat
    · simp [List.lookup]
    · have hx : key a ≠ key x := by
        intro he
        exact (List.nodup_cons.mp hnd).1 (he ▸ List.mem_map_of_mem key hat)
      simp only [List.map_cons, List.lookup, beq_eq_false_iff_ne.mpr hx]
      exact ih (List.nodup_cons.mp hnd).2 hat

/-- Splitting a list by a boolean predicate preserves total length. -/
theorem filter_split_length {α : Type} (p : α → Bool) (l : List α) :
    (l.filter p).length + (l.filter (fun a => !p a)).length = l.length := by
  induction l with
  | nil => rfl
  | cons a t ih =>
    by_cases hp : p a = true <;> simp [List.filter, hp] <;> omega

/-- The requestIds down the zip of items with verdicts are nodup when the
items' requestIds are. -/
theorem zip_key_nodup (items : List SItem) (verdicts : List Verdict)
    (hlen : items.length ≤ verdicts.length)
    (hnodup : (items.map (fun it => it.requestId)).Nodup) :
    ((items.zip verdicts).map (fun p => p.1.requestId)).Nodup := by
  have h1 : ((items.zip verdicts).map Prod.fst).map (fun it => it.requestId)
      = (items.zip verdicts).map (fun p => p.1.requestId) := by
    rw [List.map_map]
    rfl
  rw [← h1, List.map_fst_zip items verdicts hlen]
  exact hnodup

/-- The valid items' requestIds are nodup. -/
theorem validIds_nodup (items : List SItem) (verdicts : List Verdict)
    (hlen : items.length ≤ verdicts.length)
    (hnodup : (items.map (fun it => it.requestId)).Nodup) :
    ((validOf items verdicts).map (fun it => it.requestId)).Nodup := by
  have h1 : (validOf items verdicts).map (fun it => it.requestId)
      = ((items.zip verdicts).filter (fun p => p.2.valid)).map
          (fun p => p.1.requestId) := by
    unfold validOf
    rw [List.map_map]
    rfl
  rw [h1]
  exact (zip_key_nodup items verdicts hlen hnodup).sublist
    ((List.filter_sublist _).map _)

/-- An invalid pair's requestId is not among the valid ids. -/
theorem invalid_not_mem_validIds (items : List SItem) (verdicts : List Verdict)
    (hlen : items.length ≤ verdicts.length)
    (hnodup : (items.map (fun it => it.requestId)).Nodup)
    (p : SItem × Verdict) (hp : p ∈ items.zip verdicts) (hpv : p.2.valid = false) :
    p.1.requestId ∉ (validOf items verdicts).map (fun it => it.requestId) := by
  intro hmem
  have h1 : (validOf items verdicts).map (fun it => it.requestId)
      = ((items.zip verdicts).filter (fun q => q.2.valid)).map
          (fun q => q.1.requestId) := by
    unfold validOf
    rw [List.map_map]
    rfl
  rw [h1] at hmem
  obtain ⟨q, hq, hqk⟩ := List.mem_map.mp hmem
  have hqzip : q ∈ items.zip verdicts := List.mem_of_mem_filter hq
  have hqv : q.2.valid = true := by simpa using List.of_mem_filter hq
  have hqp : q = p :=
    List.inj_on_of_nodup_map (zip_key_nodup items verdicts hlen hnodup) hqzip hp hqk
  rw [hqp, hpv] at hqv
  exact Bool.noConfusion hqv

/-- Every valid item is one of the batch items. -/
theorem validOf_subset (items : List SItem) (verdicts : List Verdict) :
    ∀ x ∈ validOf items verdicts, x ∈ items := by
  intro x hx
  unfold validOf at hx
  obtain ⟨⟨p1, p2⟩, hp, hpe⟩ := List.mem_map.mp hx
  rw [← hpe]
  exact (List.of_mem_zip (List.mem_of_mem_filter hp)).1

/-- The demux result for the i-th valid item is built from the i-th entry of
the facilitator's positional results array. -/
theorem settleResultFor_valid (items : List SItem) (verdicts : List Verdict)
    (rs : List FacSettleResult)
    (hlen : items.length ≤ verdicts.length)
    (hnodup : (items.map (fun it => it.requestId)).Nodup)
    (i : Nat) (hi : i < (validOf items verdicts).length) (hirs : i < rs.length) :
    settleResultFor ((validOf items verdicts).map (fun it => it.requestId))
      (invalidOf items verdicts) rs ((validOf items verdicts).get ⟨i, hi⟩) =
    some { requestId := ((validOf items verdicts).get ⟨i, hi⟩).requestId
           success := (rs.get ⟨i, hirs⟩).success
           transaction := (rs.get ⟨i, hirs⟩).transaction
           nonce := some (rs.get ⟨i, hirs⟩).nonce
           error := (rs.get ⟨i, hirs⟩).error } := by
  have hnd := validIds_nodup items verdicts hlen hnodup
  have hi2 : i < ((validOf items verdicts).map (fun it => it.requestId)).length := by
    simpa using hi
  have hgetmap : ((validOf items verdicts).map (fun it => it.requestId)).get ⟨i, hi2⟩
      = ((validOf items verdicts).get ⟨i, hi⟩).requestId := by
    simp
  have hvio := validIndexOf_get _ i hnd hi2
  rw [hgetmap] at hvio
  simp only [settleResultFor, hvio]
  rw [List.get?_eq_get hirs]
  rfl

/-- The demux result for an invalid pair's item is the verification-failed
record carrying that pair's reason. -/
theorem settleResultFor_invalid (items : List SItem) (verdicts : List Verdict)
    (rs : List FacSettleResult)
    (hlen : items.length ≤ verdicts.length)
    (hnodup : (items.map (fun it => it.requestId)).Nodup)
    (p : SItem × Verdict) (hp : p ∈ items.zip verdicts) (hpv : p.2.valid = false) :
    settleResultFor ((validOf items verdicts).map (fun it => it.requestId))
      (invalidOf items verdicts) rs p.1 =
    some { requestId := p.1.requestId, success := false, transaction := none
           nonce := none
           error := some ("Verification failed: " ++ jsOrElse p.2.reason "unknown") } := by
  have hnm := invalid_not_mem_validIds items verdicts hlen hnodup p hp hpv
  have hvio := validIndexOf_of_not_mem _ _ hnm
  simp only [settleResultFor, hvio]
  have hpinv : p ∈ invalidOf items verdicts := by
    unfold invalidOf
    exact List.mem_filter.mpr ⟨hp, by simp [hpv]⟩
  have hfind : (invalidOf items verdicts).find?
      (fun inv => inv.1.requestId == p.1.requestId) = some p := by
    apply find?_key_unique (fun inv => inv.1.requestId) _ p hpinv
    intro b hb hkb
    have hbzip : b ∈ items.zip verdicts :=
      List.mem_of_mem_filter (l := items.zip verdicts) hb
    exact List.inj_on_of_nodup_map (zip_key_nodup items verdicts hlen hnodup)
      hbzip hp hkb
  rw [hfind]
  rfl

/-- The demux never hits the JS-undefined index access when the results
array covers the valid items. -/
theorem settleResultFor_isSome (items : List SItem) (verdicts : List Verdict)
    (rs : List FacSettleResult)
    (hrs : (validOf items verdicts).length ≤ rs.length) (it : SItem) :
    (settleResultFor ((validOf items verdicts).map (fun x => x.requestId))
      (invalidOf items verdicts) rs it).isSome = true := by
  simp only [settleResultFor]
  cases hvio : validIndexOf ((validOf items verdicts).map (fun x => x.requestId))
      it.requestId with
  | none => simp
  | some j =>
    have hj := validIndexOf_lt _ _ _ hvio
    rw [List.length_map] at hj
    have hjr : j < rs.length := by omega
    simp [List.getElem?_eq_getElem hjr]

/-- Every demuxed record keeps its item's requestId. -/
theorem settleResultFor_requestId (validIds : List String)
    (invalidItems : List (SItem × Verdict)) (rs : List FacSettleResult)
    (a : SItem) (b : SettleResult)
    (h : settleResultFor validIds invalidItems rs a = some b) :
    b.requestId = a.requestId := by
  simp only [settleResultFor] at h
  cases hvio : validIndexOf validIds a.requestId <;> rw [hvio] at h
  · simp only [Option.some.injEq] at h
    subst h
    rfl
  · simp only [Option.map_eq_some'] at h
    obtain ⟨r, hr, hrb⟩ := h
    subst hrb
    rfl

/-- Witness for C8's amended theorem at a 3-of-3 pool. -/
theorem acquire_timeout_null_witness :
    acquire ⟨[], 3, 3, false⟩ CreateOutcome.createFailed none = none
    ∧ executeCmd ⟨[], 3, 3, false⟩ CreateOutcome.createFailed none
        (fun c => Except.ok c.connId) = none :=
  acquire_timeout_null ⟨[], 3, 3, false⟩ CreateOutcome.createFailed
    (fun c => Except.ok c.connId) rfl (by decide) rfl

/-- C4 counterexample: with N = K = 1 (every item failing re-verify), the
batch returns early — no settle POST is made at all, and the item completes
with 'All payments failed verification' rather than
'Verification failed: <reason>' as the claim states for K = N. -/
theorem batch_all_invalid_cex :
    batchSettle [⟨"r1", 0⟩] [⟨false, some "expired"⟩] (Except.ok []) =
      { posted := none
        results := Except.ok [{ requestId := "r1", success := false
                                transaction := none, nonce := none
                                error := some "All payments failed verification" }] }
    ∧ (flush [⟨"r1", 0⟩] 10 [⟨false, some "expired"⟩] (Except.ok [])).1 =
        [("r1", Except.error "All payments failed verification")] := by
  constructor <;> rfl

/-- C4 amended: when at least one item passes re-verify (K < N), the settle
POST body is exactly the valid items (so N−K of them), the final results
cover all N items, and each of the K re-verify failures resolves with
'Verification failed: <reason>'; when K = N, no settle POST is made and
every item fails with 'All payments failed verification'. -/
theorem batchSettle_invalid_split (items : List SItem) (verdicts : List Verdict)
    (rs : List FacSettleResult)
    (hlen : items.length = verdicts.length)
    (hnodup : (items.map (fun it => it.requestId)).Nodup)
    (hvalid : validOf items verdicts ≠ [])
    (hrs : (validOf items verdicts).length ≤ rs.length) :
    (batchSettle items verdicts (Except.ok rs)).posted = some (validOf items verdicts)
    ∧ (validOf items verdicts).length + (invalidOf items verdicts).length
        = items.length
    ∧ (∃ finalResults,
        (batchSettle items verdicts (Except.ok rs)).results = Except.ok finalResults
        ∧ finalResults.length = items.length
        ∧ ∀ p ∈ items.zip verdicts, p.2.valid = false →
            finalResults.find? (fun r => r.requestId == p.1.requestId) =
              some { requestId := p.1.requestId, success := false, transaction := none
                     nonce := none
                     error := some ("Verification failed: "
                       ++ jsOrElse p.2.reason "unknown") })
    ∧ (∀ (items2 : List SItem) (verdicts2 : List Verdict)
        (fac2 : Except String (List FacSettleResult)),
        validOf items2 verdicts2 = [] →
          (batchSettle items2 verdicts2 fac2).posted = none
          ∧ (batchSettle items2 verdicts2 fac2).results =
              Except.ok (items2.map (fun it =>
                { requestId := it.requestId, success := false, transaction := none
                  nonce := none
                  error := some "All payments failed verification" }))) := by
  have hlen' : items.length ≤ verdicts.length := le_of_eq hlen
  obtain ⟨finalResults, hfr⟩ := mapOpt_isSome_of_forall
    (settleResultFor ((validOf items verdicts).map (fun it => it.requestId))
      (invalidOf items verdicts) rs) items
    (fun a _ => settleResultFor_isSome items verdicts rs hrs a)
  have hne : (validOf items verdicts).isEmpty = false := by
    cases hv : validOf items verdicts with
    | nil => exact absurd hv hvalid
    | cons x t => rfl
  have hbs : batchSettle items verdicts (Except.ok rs) =
      { posted := some (validOf items verdicts)
        results := Except.ok finalResults } := by
    simp only [batchSettle, hne, hfr, Bool.false_eq_true, if_false]
  have hkeys : finalResults.map (fun r => r.requestId)
      = items.map (fun it => it.requestId) :=
    mapOpt_map_key _ _ _ (fun x y hxy => settleResultFor_requestId _ _ _ x y hxy)
      items finalResults hfr
  have hfnd : (finalResults.map (fun r => r.requestId)).Nodup := by
    rw [hkeys]
    exact hnodup
  refine ⟨by rw [hbs], ?_, ⟨finalResults, by rw [hbs], mapOpt_length _ _ _ hfr, ?_⟩, ?_⟩
  · have hsplit := filter_split_length (fun p => p.2.valid) (items.zip verdicts)
    have hzl : (items.zip verdicts).length = items.length := by
      rw [List.length_zip, hlen, Nat.min_self]
    unfold validOf invalidOf
    rw [List.length_map]
    omega
  · rintro ⟨a, bv⟩ hp hpv
    have hb := settleResultFor_invalid items verdicts rs hlen' hnodup (a, bv) hp hpv
    have hain : a ∈ items := (List.of_mem_zip hp).1
    have hmem := mapOpt_mem _ items finalResults hfr a hain _ hb
    have huniq : ∀ b2 ∈ finalResults,
        b2.requestId = (a, bv).1.requestId → b2 =
          { requestId := (a, bv).1.requestId, success := false, transaction := none
            nonce := none
            error := some ("Verification failed: "
              ++ jsOrElse (a, bv).2.reason "unknown") } := by
      intro b2 hb2 hk
      exact List.inj_on_of_nodup_map hfnd hb2 hmem hk
    exact find?_key_unique (fun r => r.requestId) finalResults _ hmem huniq
  · intro items2 verdicts2 fac2 hv
    have hempty : (validOf items2 verdicts2).isEmpty = true := by
      rw [hv]
      rfl
    exact ⟨by simp [batchSettle, hempty], by simp [batchSettle, hempty]⟩

/-- Witness for C4's amended theorem: 2 items, 1 invalid, 1 facilitator
result. -/
theorem batchSettle_invalid_split_witness :
    (batchSettle [⟨"a", 0⟩, ⟨"b", 1⟩] [⟨true, none⟩, ⟨false, some "expired"⟩]
        (Except.ok [⟨true, some "0xT", 5, none⟩])).posted = some [⟨"a", 0⟩]
    ∧ (validOf [⟨"a", 0⟩, ⟨"b", 1⟩] [⟨true, none⟩, ⟨false, some "expired"⟩]).length
        + (invalidOf [⟨"a", 0⟩, ⟨"b", 1⟩]
            [⟨true, none⟩, ⟨false, some "expired"⟩]).length = 2 := by
  have h := batchSettle_invalid_split [⟨"a", 0⟩, ⟨"b", 1⟩]
    [⟨true, none⟩, ⟨false, some "expired"⟩] [⟨true, some "0xT", 5, none⟩]
    (by decide) (by decide) (by decide) (by decide)
  refine ⟨?_, h.2.1⟩
  rw [h.1]
  rfl

/-- C5: one flush processes exactly the prefix of length min(batchSize, N)
of the queue in insertion order — the completion list carries the prefix's
requestIds in order and the remaining queue is the corresponding drop — and
each valid item's settle result is built from the facilitator's positional
results array at the index equal to that item's position in the valid-item
list. -/
theorem flush_positional_demux (queue : List SItem) (batchSize : Nat)
    (verdicts : List Verdict) (rs : List FacSettleResult)
    (hlen : (queue.take batchSize).length = verdicts.length)
    (hnodup : (queue.map (fun it => it.requestId)).Nodup)
    (hvalid : validOf (queue.take batchSize) verdicts ≠ [])
    (hrs : (validOf (queue.take batchSize) verdicts).length ≤ rs.length) :
    (queue.take batchSize).length = min batchSize queue.length
    ∧ (flush queue batchSize verdicts (Except.ok rs)).1.map Prod.fst =
        (queue.take batchSize).map (fun it => it.requestId)
    ∧ (flush queue batchSize verdicts (Except.ok rs)).2 = queue.drop batchSize
    ∧ ∀ i (hi : i < (validOf (queue.take batchSize) verdicts).length),
        (flush queue batchSize verdicts (Except.ok rs)).1.lookup
            (((validOf (queue.take batchSize) verdicts).get ⟨i, hi⟩).requestId) =
          some (settleCompletion
            { requestId :=
                ((validOf (queue.take batchSize) verdicts).get ⟨i, hi⟩).requestId
              success := (rs.get ⟨i, Nat.lt_of_lt_of_le hi hrs⟩).success
              transaction := (rs.get ⟨i, Nat.lt_of_lt_of_le hi hrs⟩).transaction
              nonce := some (rs.get ⟨i, Nat.lt_of_lt_of_le hi hrs⟩).nonce
              error := (rs.get ⟨i, Nat.lt_of_lt_of_le hi hrs⟩).error }) := by
  have hBnodup : ((queue.take batchSize).map (fun it => it.requestId)).Nodup :=
    hnodup.sublist ((List.take_sublist _ _).map _)
  have hlen' : (queue.take batchSize).length ≤ verdicts.length := le_of_eq hlen
  obtain ⟨finalResults, hfr⟩ := mapOpt_isSome_of_forall
    (settleResultFor
      ((validOf (queue.take batchSize) verdicts).map (fun it => it.requestId))
      (invalidOf (queue.take batchSize) verdicts) rs) (queue.take batchSize)
    (fun a _ => settleResultFor_isSome (queue.take batchSize) verdicts rs hrs a)
  have hne : (validOf (queue.take batchSize) verdicts).isEmpty = false := by
    cases hv : validOf (queue.take batchSize) verdicts with
    | nil => exact absurd hv hvalid
    | cons x t => rfl
  have hbs : batchSettle (queue.take batchSize) verdicts (Except.ok rs) =
      { posted := some (validOf (queue.take batchSize) verdicts)
        results := Except.ok finalResults } := by
    simp only [batchSettle, hne, hfr, Bool.false_eq_true, if_false]
  have hflush : flush queue batchSize verdicts (Except.ok rs) =
      (finalResults.map (fun r => (r.requestId, settleCompletion r)),
       queue.filter (fun it =>
         !(finalResults.any (fun r => r.requestId == it.requestId)))) := by
    simp only [flush, hbs]
  have hkeys : finalResults.map (fun r => r.requestId)
      = (queue.take batchSize).map (fun it => it.requestId) :=
    mapOpt_map_key _ _ _ (fun x y hxy => settleResultFor_requestId _ _ _ x y hxy)
      _ _ hfr
  have hfnd : (finalResults.map (fun r => r.requestId)).Nodup := by
    rw [hkeys]
    exact hBnodup
  refine ⟨List.length_take _ _, ?_, ?_, ?_⟩
  · rw [hflush]
    show (finalResults.map fun r => (r.requestId, settleCompletion r)).map Prod.fst
        = (queue.take batchSize).map (fun it => it.requestId)
    rw [List.map_map]
    exact hkeys
  · rw [hflush]
    show queue.filter (fun it =>
        !(finalResults.any (fun r => r.requestId == it.requestId)))
      = queue.drop batchSize
    have hmemiff : ∀ it : SItem,
        (finalResults.any (fun r => r.requestId == it.requestId)) = true
          ↔ it.requestId ∈ (queue.take batchSize).map (fun x => x.requestId) := by
      intro it
      rw [List.any_eq_true]
      constructor
      · rintro ⟨r, hr, hbeq⟩
        have hrk : r.requestId = it.requestId := by simpa using hbeq
        rw [← hrk, ← hkeys]
        exact List.mem_map_of_mem _ hr
      · intro hmem
        rw [← hkeys] at hmem
        obtain ⟨r, hr, hrk⟩ := List.mem_map.mp hmem
        exact ⟨r, hr, by simp [hrk]⟩
    have hdisj : ∀ a ∈ queue.drop batchSize,
        a.requestId ∉ (queue.take batchSize).map (fun x => x.requestId) := by
      intro a ha hmem
      have hq : queue.map (fun x => x.requestId)
          = (queue.take batchSize).map (fun x => x.requestId)
            ++ (queue.drop batchSize).map (fun x => x.requestId) := by
        rw [← List.map_append, List.take_append_drop]
      have hnd2 := hnodup
      rw [hq] at hnd2
      exact List.disjoint_of_nodup_append hnd2 hmem (List.mem_map_of_mem _ ha)
    conv_lhs => rw [← List.take_append_drop batchSize queue]
    rw [List.filter_append]
    have h1 : (queue.take batchSize).filter (fun it =>
        !(finalResults.any (fun r => r.requestId == it.requestId))) = [] := by
      rw [List.filter_eq_nil_iff]
      intro a ha
      have := (hmemiff a).mpr (List.mem_map_of_mem _ ha)
      simp [this]
    have h2 : (queue.drop batchSize).filter (fun it =>
        !(finalResults.any (fun r => r.requestId == it.requestId)))
        = queue.drop batchSize := by
      rw [List.filter_eq_self]
      intro a ha
      have hnm := hdisj a ha
      have : (finalResults.any (fun r => r.requestId == a.requestId)) = false :=
        Bool.eq_false_iff.mpr (fun hcon => hnm ((hmemiff a).mp hcon))
      simp [this]
    rw [h1, h2, List.nil_append]
  · intro i hi
    rw [hflush]
    have hrec := settleResultFor_valid (queue.take batchSize) verdicts rs hlen'
      hBnodup i hi (Nat.lt_of_lt_of_le hi hrs)
    have hvmem : (validOf (queue.take batchSize) verdicts).get ⟨i, hi⟩
        ∈ queue.take batchSize :=
      validOf_subset _ _ _ (List.get_mem _ _ _)
    have hmem := mapOpt_mem _ _ _ hfr _ hvmem _ hrec
    exact lookup_assoc_of_nodup (fun r => r.requestId) settleCompletion
      finalResults hfnd _ hmem

/-- Witness for C5 at a 3-item queue with batch size 2 and one invalid
item. -/
theorem flush_positional_demux_witness :
    (flush [⟨"a", 0⟩, ⟨"b", 1⟩, ⟨"c", 2⟩] 2 [⟨true, none⟩, ⟨false, some "bad"⟩]
        (Except.ok [⟨true, some "0xT", 9, none⟩])).2 = [⟨"c", 2⟩]
    ∧ (flush [⟨"a", 0⟩, ⟨"b", 1⟩, ⟨"c", 2⟩] 2 [⟨true, none⟩, ⟨false, some "bad"⟩]
        (Except.ok [⟨true, some "0xT", 9, none⟩])).1.map Prod.fst = ["a", "b"]
    ∧ (flush [⟨"a", 0⟩, ⟨"b", 1⟩, ⟨"c", 2⟩] 2 [⟨true, none⟩, ⟨false, some "bad"⟩]
        (Except.ok [⟨true, some "0xT", 9, none⟩])).1.lookup "a" =
      some (Except.ok ⟨"a", true, some "0xT", some 9, none⟩) := by
  have h := flush_positional_demux [⟨"a", 0⟩, ⟨"b", 1⟩, ⟨"c", 2⟩] 2
    [⟨true, none⟩, ⟨false, some "bad"⟩] [⟨true, some "0xT", 9, none⟩]
    (by decide) (by decide) (by decide) (by decide)
  exact ⟨h.2.2.1, h.2.1, h.2.2.2 0 (by decide)⟩

end X402
